import Mathlib

/-!
Verification development for the hazard-reporting dashboard frontend.

The definitions below are shallow embeddings of the TypeScript source:
  - src/pages/Dashboard.tsx        (socket handler, calculateDistance, dismissAlert, fetchHazards)
  - src/components/HazardList.tsx  (calculateDistance, sortedHazards)
  - src/components/HazardMap.tsx   (calculateDistance)
  - src/components/AlertNotification.tsx (auto-expiry timers)
  - src/contexts/LocationContext.tsx / AuthContext (session token, position)

JavaScript numbers are modelled as real numbers; timestamps (Date.now(),
getTime()) as natural numbers counting milliseconds.
-/

/-- Model of JavaScript Math.atan2 on real arguments, by its standard
case analysis on the quadrant of (x, y). -/
noncomputable def atan2 (y x : ℝ) : ℝ :=
  if 0 < x then Real.arctan (y / x)
  else if x < 0 then
    (if 0 ≤ y then Real.arctan (y / x) + Real.pi else Real.arctan (y / x) - Real.pi)
  else
    (if 0 < y then Real.pi / 2 else if y < 0 then -(Real.pi / 2) else 0)

namespace Dashboard

/-- Haversine distance as written in src/pages/Dashboard.tsx, lines 109-119. -/
noncomputable def calculateDistance (lat1 lon1 lat2 lon2 : ℝ) : ℝ :=
  let R : ℝ := 6371
  let dLat := (lat2 - lat1) * Real.pi / 180
  let dLon := (lon2 - lon1) * Real.pi / 180
  let a :=
    Real.sin (dLat / 2) * Real.sin (dLat / 2) +
    Real.cos (lat1 * Real.pi / 180) * Real.cos (lat2 * Real.pi / 180) *
    (Real.sin (dLon / 2) * Real.sin (dLon / 2))
  let c := 2 * atan2 (Real.sqrt a) (Real.sqrt (1 - a))
  R * c

end Dashboard

namespace HazardList

/-- Haversine distance as written in src/components/HazardList.tsx, lines 14-24. -/
noncomputable def calculateDistance (lat1 lon1 lat2 lon2 : ℝ) : ℝ :=
  let R : ℝ := 6371
  let dLat := (lat2 - lat1) * Real.pi / 180
  let dLon := (lon2 - lon1) * Real.pi / 180
  let a :=
    Real.sin (dLat / 2) * Real.sin (dLat / 2) +
    Real.cos (lat1 * Real.pi / 180) * Real.cos (lat2 * Real.pi / 180) *
    (Real.sin (dLon / 2) * Real.sin (dLon / 2))
  let c := 2 * atan2 (Real.sqrt a) (Real.sqrt (1 - a))
  R * c

end HazardList

namespace HazardMap

/-- Haversine distance as written in src/components/HazardMap.tsx, lines 93-103. -/
noncomputable def calculateDistance (lat1 lon1 lat2 lon2 : ℝ) : ℝ :=
  let R : ℝ := 6371
  let dLat := (lat2 - lat1) * Real.pi / 180
  let dLon := (lon2 - lon1) * Real.pi / 180
  let a :=
    Real.sin (dLat / 2) * Real.sin (dLat / 2) +
    Real.cos (lat1 * Real.pi / 180) * Real.cos (lat2 * Real.pi / 180) *
    (Real.sin (dLon / 2) * Real.sin (dLon / 2))
  let c := 2 * atan2 (Real.sqrt a) (Real.sqrt (1 - a))
  R * c

end HazardMap

/-- Spec-side haversine, transcribed from the spec text (section 4.2):
latitudes and longitudes converted from degrees to radians, then
a = sin^2(dlat/2) + cos(lat1) cos(lat2) sin^2(dlon/2) and
distance = 2 R atan2(sqrt a, sqrt (1-a)) with R = 6371 km. -/
noncomputable def haversineSpec (lat1 lon1 lat2 lon2 : ℝ) : ℝ :=
  let rlat1 := lat1 * Real.pi / 180
  let rlat2 := lat2 * Real.pi / 180
  let rlon1 := lon1 * Real.pi / 180
  let rlon2 := lon2 * Real.pi / 180
  let a :=
    Real.sin ((rlat2 - rlat1) / 2) ^ 2 +
    Real.cos rlat1 * Real.cos rlat2 * Real.sin ((rlon2 - rlon1) / 2) ^ 2
  2 * 6371 * atan2 (Real.sqrt a) (Real.sqrt (1 - a))

/-- Claim C2: for every pair of positions given in degrees, the source
distance function returns exactly the spec's great-circle (haversine)
distance with Earth radius 6371 km. -/
theorem calculateDistance_eq_haversineSpec (lat1 lon1 lat2 lon2 : ℝ) :
    Dashboard.calculateDistance lat1 lon1 lat2 lon2 = haversineSpec lat1 lon1 lat2 lon2 := by
  simp only [Dashboard.calculateDistance, haversineSpec]
  have hlat : (lat2 - lat1) * Real.pi / 180 / 2 =
      (lat2 * Real.pi / 180 - lat1 * Real.pi / 180) / 2 := by ring
  have hlon : (lon2 - lon1) * Real.pi / 180 / 2 =
      (lon2 * Real.pi / 180 - lon1 * Real.pi / 180) / 2 := by ring
  rw [hlat, hlon]
  have ha : Real.sin ((lat2 * Real.pi / 180 - lat1 * Real.pi / 180) / 2) *
        Real.sin ((lat2 * Real.pi / 180 - lat1 * Real.pi / 180) / 2) +
        Real.cos (lat1 * Real.pi / 180) * Real.cos (lat2 * Real.pi / 180) *
        (Real.sin ((lon2 * Real.pi / 180 - lon1 * Real.pi / 180) / 2) *
          Real.sin ((lon2 * Real.pi / 180 - lon1 * Real.pi / 180) / 2)) =
      Real.sin ((lat2 * Real.pi / 180 - lat1 * Real.pi / 180) / 2) ^ 2 +
        Real.cos (lat1 * Real.pi / 180) * Real.cos (lat2 * Real.pi / 180) *
        Real.sin ((lon2 * Real.pi / 180 - lon1 * Real.pi / 180) / 2) ^ 2 := by ring
  rw [ha]
  ring

/-- Claim C9: the distance routines embedded at the three call sites
(event admission in Dashboard, list sorting in HazardList, map popups in
HazardMap) agree on every input, and each is deterministic: its output
depends only on its four numeric arguments. -/
theorem calculateDistance_shared :
    Dashboard.calculateDistance = HazardList.calculateDistance ∧
    HazardList.calculateDistance = HazardMap.calculateDistance ∧
    (∀ a1 b1 c1 d1 a2 b2 c2 d2 : ℝ, a1 = a2 → b1 = b2 → c1 = c2 → d1 = d2 →
      Dashboard.calculateDistance a1 b1 c1 d1 = Dashboard.calculateDistance a2 b2 c2 d2) := by
  refine ⟨rfl, rfl, ?_⟩
  intro a1 b1 c1 d1 a2 b2 c2 d2 h1 h2 h3 h4
  rw [h1, h2, h3, h4]

/-- Witness for C9 at a concrete input, discharging the equality
hypotheses of the determinism clause. -/
theorem calculateDistance_shared_witness :
    Dashboard.calculateDistance 40 (-74) 41 (-73) = Dashboard.calculateDistance 40 (-74) 41 (-73) :=
  calculateDistance_shared.2.2 40 (-74) 41 (-73) 40 (-74) 41 (-73) rfl rfl rfl rfl

/-- Geographic position as used throughout the source: degrees latitude
and longitude (Location in src/lib/api.ts). -/
structure Location where
  lat : ℝ
  lon : ℝ

/-- Payload of a hazard_alert socket event. The location field is an
Option: a malformed inbound event omits it (spec section 7 (d)).
Timestamps are modelled by their epoch-millisecond value. -/
structure HazardPayload where
  hazard_type : String
  description : String
  confidence : ℝ
  location : Option Location
  timestamp : ℕ
  user_id : String

/-- AlertRecord held in the alerts queue: the spread payload plus the
locally generated id (Dashboard.tsx line 88-91). -/
structure Alert where
  payload : HazardPayload
  id : String

/-- Locally generated alert id: Date.now().toString() with Date.now()
modelled as the arrival instant in milliseconds. -/
def freshId (now : ℕ) : String := toString now

/-- Enqueue of an admitted event (Dashboard.tsx lines 88-92):
setAlerts((prev) => [...prev, alertWithId]). -/
def enqueue (data : HazardPayload) (now : ℕ) (alerts : List Alert) : List Alert :=
  alerts ++ [{ payload := data, id := freshId now }]

/-- Model of the socket.on hazard_alert handler (Dashboard.tsx lines
74-98). Returns none when the handler throws (dereference of the lat
field of a missing location), otherwise some (new queue, number of
fetchHazards refresh calls made). -/
noncomputable def handleHazardAlert (currentLocation : Option Location)
    (data : HazardPayload) (now : ℕ) (alerts : List Alert) :
    Option (List Alert × ℕ) :=
  match currentLocation with
  | none => some (alerts, 0)
  | some loc =>
    match data.location with
    | none => none
    | some dloc =>
      if Dashboard.calculateDistance loc.lat loc.lon dloc.lat dloc.lon ≤ 3 then
        some (enqueue data now alerts, 1)
      else
        some (alerts, 0)

/-- Manual dismissal (Dashboard.tsx lines 126-128):
setAlerts((prev) => prev.filter((alert) => alert.id !== id)). -/
def dismissAlert (id : String) (alerts : List Alert) : List Alert :=
  alerts.filter (fun alert => alert.id ≠ id)

/-- Toast shown by the dashboard on a failed fetch. -/
structure Toast where
  title : String
  description : String
  destructive : Bool

/-- Dashboard component state touched by fetchHazards. -/
structure DashState where
  hazards : List HazardPayload
  loading : Bool
  alerts : List Alert
  toasts : List Toast

/-- Effect of a completed fetchHazards call (Dashboard.tsx lines 30-44)
on the dashboard state, given the request's outcome: on success the
hazards list is replaced, on error a destructive toast is shown; either
way loading ends and the alerts queue is untouched. -/
def fetchHazardsResult (st : DashState) (res : Except String (List HazardPayload)) : DashState :=
  match res with
  | .ok data => { st with hazards := data, loading := false }
  | .error _ =>
      { st with
        toasts := st.toasts ++ [{ title := "Error", description := "Could not fetch hazards",
                                  destructive := true }],
        loading := false }

/-- Concrete position used by witnesses: (40, -74). -/
def l0 : Location := { lat := 40, lon := -74 }

/-- Concrete well-formed hazard_alert payload used by witnesses. -/
def p1 : HazardPayload :=
  { hazard_type := "pothole", description := "deep pothole", confidence := 90,
    location := some l0, timestamp := 0, user_id := "u1" }

/-- Concrete malformed payload: the location field is missing. -/
def pMalformed : HazardPayload :=
  { hazard_type := "pothole", description := "deep pothole", confidence := 90,
    location := none, timestamp := 0, user_id := "u1" }

/-- Claim C1: a well-formed incoming event is admitted to the alert
queue (appended, with one refresh) precisely when a current Position is
known and its distance to the event location is at most 3 km; with no
known Position the handler leaves the queue unchanged whatever the
event contains. -/
theorem hazard_admission_iff :
    (∀ (cl : Option Location) (data : HazardPayload) (dloc : Location) (now : ℕ)
        (alerts : List Alert), data.location = some dloc →
      (handleHazardAlert cl data now alerts = some (enqueue data now alerts, 1) ↔
        ∃ loc, cl = some loc ∧
          Dashboard.calculateDistance loc.lat loc.lon dloc.lat dloc.lon ≤ 3)) ∧
    (∀ (data : HazardPayload) (now : ℕ) (alerts : List Alert),
      handleHazardAlert none data now alerts = some (alerts, 0)) := by
  constructor
  · intro cl data dloc now alerts hloc
    cases cl with
    | none =>
        simp only [handleHazardAlert]
        constructor
        · intro h
          exfalso
          have h2 := (Option.some.injEq _ _).mp h
          have : (0 : ℕ) = 1 := congrArg Prod.snd h2
          exact Nat.zero_ne_one this
        · rintro ⟨loc, hl, -⟩
          exact absurd hl (by simp)
    | some loc =>
        simp only [handleHazardAlert, hloc]
        by_cases hd : Dashboard.calculateDistance loc.lat loc.lon dloc.lat dloc.lon ≤ 3
        · rw [if_pos hd]
          constructor
          · intro _
            exact ⟨loc, rfl, hd⟩
          · intro _
            rfl
        · rw [if_neg hd]
          constructor
          · intro h
            exfalso
            have h2 := (Option.some.injEq _ _).mp h
            have : (0 : ℕ) = 1 := congrArg Prod.snd h2
            exact Nat.zero_ne_one this
          · rintro ⟨loc2, hl2, hd2⟩
            have : loc2 = loc := by
              have h3 := (Option.some.injEq _ _).mp hl2
              exact h3.symm
            exact absurd (this ▸ hd2) hd
  · intro data now alerts
    rfl

/-- Witness for C1 at a concrete input: with no known Position the
concrete event p1 is not admitted and the queue stays unchanged; the
well-formedness hypothesis is discharged by rfl. -/
theorem hazard_admission_iff_witness :
    (handleHazardAlert none p1 0 [] = some (([] : List Alert), 0)) ∧
    (handleHazardAlert none p1 0 [] = some (enqueue p1 0 [], 1) ↔
      ∃ loc, (none : Option Location) = some loc ∧
        Dashboard.calculateDistance loc.lat loc.lon l0.lat l0.lon ≤ 3) :=
  ⟨hazard_admission_iff.2 p1 0 [], hazard_admission_iff.1 none p1 l0 0 [] rfl⟩

/-- Claim C3 (code bug): with a current Position known, an inbound event
whose payload is missing the location field makes the handler dereference
data.location.lat on undefined and throw, modelled as the error result
none, instead of treating the event as non-admissible. -/
theorem malformed_event_crashes :
    handleHazardAlert (some l0) pMalformed 0 [] = none := rfl

/-! Injectivity of the decimal rendering used for alert ids
(Date.now().toString() is Nat.repr in the model). -/

/-- Accumulator lemma for the digit printer: the accumulator is simply
appended to the digits produced from the empty accumulator. -/
theorem toDigitsCore_append (b : ℕ) :
    ∀ (fuel n : ℕ) (ds : List Char),
      Nat.toDigitsCore b fuel n ds = Nat.toDigitsCore b fuel n [] ++ ds := by
  intro fuel
  induction fuel with
  | zero => intro n ds; simp [Nat.toDigitsCore]
  | succ f ih =>
      intro n ds
      simp only [Nat.toDigitsCore]
      by_cases h : n / b = 0
      · simp [h]
      · simp only [h, if_false]
        rw [ih (n / b) (Nat.digitChar (n % b) :: ds), ih (n / b) [Nat.digitChar (n % b)]]
        simp

/-- Fuel irrelevance for the digit printer: any fuel above the number
being printed yields the same digits. -/
theorem toDigitsCore_fuel (b : ℕ) (hb : 2 ≤ b) :
    ∀ (n fuel1 fuel2 : ℕ), n < fuel1 → n < fuel2 →
      Nat.toDigitsCore b fuel1 n [] = Nat.toDigitsCore b fuel2 n [] := by
  intro n
  induction n using Nat.strong_induction_on with
  | _ n ih =>
      intro fuel1 fuel2 h1 h2
      cases fuel1 with
      | zero => omega
      | succ f1 =>
          cases fuel2 with
          | zero => omega
          | succ f2 =>
              simp only [Nat.toDigitsCore]
              by_cases h : n / b = 0
              · simp [h]
              · simp only [h, if_false]
                have hn : 0 < n := by
                  rcases Nat.eq_zero_or_pos n with h0 | h0
                  · exfalso; apply h; rw [h0]; exact Nat.zero_div b
                  · exact h0
                have hdiv : n / b < n := Nat.div_lt_self hn (by omega)
                rw [toDigitsCore_append b f1, toDigitsCore_append b f2]
                rw [ih (n / b) hdiv f1 f2 (by omega) (by omega)]

/-- Digits of a single-digit number. -/
theorem toDigits_of_lt (b n : ℕ) (h : n < b) :
    Nat.toDigits b n = [Nat.digitChar n] := by
  simp only [Nat.toDigits, Nat.toDigitsCore]
  have hdiv : n / b = 0 := Nat.div_eq_of_lt h
  have hmod : n % b = n := Nat.mod_eq_of_lt h
  simp [hdiv, hmod]

/-- Digits of a multi-digit number: digits of the quotient followed by
the last digit. -/
theorem toDigits_of_ge (b n : ℕ) (hb : 2 ≤ b) (h : b ≤ n) :
    Nat.toDigits b n = Nat.toDigits b (n / b) ++ [Nat.digitChar (n % b)] := by
  have hn : 0 < n := lt_of_lt_of_le (by omega) h
  have hdivpos : 0 < n / b := Nat.div_pos h (by omega)
  have hdivlt : n / b < n := Nat.div_lt_self hn (by omega)
  have hne : ¬ (n / b = 0) := Nat.pos_iff_ne_zero.mp hdivpos
  conv_lhs => simp only [Nat.toDigits, Nat.toDigitsCore]
  simp only [hne, if_false]
  rw [toDigitsCore_append b n (n / b) [Nat.digitChar (n % b)]]
  rw [toDigitsCore_fuel b hb (n / b) n (n / b + 1) hdivlt (Nat.lt_succ_self _)]
  rfl

/-- Numeric value of a decimal digit character. -/
def charVal (c : Char) : ℕ := c.toNat - Char.toNat '0'

/-- charVal inverts digitChar on decimal digits. -/
theorem charVal_digitChar : ∀ d : ℕ, d < 10 → charVal (Nat.digitChar d) = d := by decide

/-- Decimal parser on character lists, used only to prove the printer
injective. -/
def ofChars (l : List Char) : ℕ := l.foldl (fun acc c => 10 * acc + charVal c) 0

/-- Folding the parser from an arbitrary accumulator. -/
theorem ofChars_foldl (l : List Char) :
    ∀ acc : ℕ, l.foldl (fun acc c => 10 * acc + charVal c) acc =
      acc * 10 ^ l.length + ofChars l := by
  induction l with
  | nil => intro acc; simp [ofChars]
  | cons c cs ih =>
      intro acc
      simp only [List.foldl_cons, List.length_cons, ofChars]
      rw [ih (10 * acc + charVal c), ih (10 * 0 + charVal c)]
      ring

/-- Round trip: parsing the printed decimal digits of n gives back n. -/
theorem ofChars_toDigits : ∀ n : ℕ, ofChars (Nat.toDigits 10 n) = n := by
  intro n
  induction n using Nat.strong_induction_on with
  | _ n ih =>
      by_cases h : n < 10
      · rw [toDigits_of_lt 10 n h]
        simp [ofChars, charVal_digitChar n h]
      · have h10 : 10 ≤ n := by omega
        rw [toDigits_of_ge 10 n (by omega) h10]
        have hdivlt : n / 10 < n := Nat.div_lt_self (by omega) (by omega)
        simp only [ofChars, List.foldl_append, List.foldl_cons, List.foldl_nil]
        have hrec : List.foldl (fun acc c => 10 * acc + charVal c) 0 (Nat.toDigits 10 (n / 10))
            = n / 10 := ih (n / 10) hdivlt
        rw [hrec, charVal_digitChar (n % 10) (Nat.mod_lt n (by omega))]
        omega

/-- The decimal rendering of naturals is injective. -/
theorem natRepr_injective : ∀ m n : ℕ, Nat.repr m = Nat.repr n → m = n := by
  intro m n h
  have hdata : Nat.toDigits 10 m = Nat.toDigits 10 n := congrArg String.data h
  calc m = ofChars (Nat.toDigits 10 m) := (ofChars_toDigits m).symm
    _ = ofChars (Nat.toDigits 10 n) := by rw [hdata]
    _ = n := ofChars_toDigits n

/-- Counterexample to claim C4 as stated: two arrivals at the same
instant (Date.now() = 5 ms for both) receive the same id "5", so the
second id is not distinct from the id already in the queue and the
queue's ids are not pairwise distinct. -/
theorem enqueue_same_instant_duplicate_id :
    (enqueue p1 5 (enqueue p1 5 [])).map Alert.id = ["5", "5"] ∧
    ¬ ((enqueue p1 5 (enqueue p1 5 [])).map Alert.id).Nodup := by
  constructor
  · rfl
  · intro h
    have : (["5", "5"] : List String).Nodup := by
      have he : (enqueue p1 5 (enqueue p1 5 [])).map Alert.id = ["5", "5"] := rfl
      exact he ▸ h
    simp at this

/-- Claim C4 as amended: enqueue appends the new AlertRecord at the end
of the queue, its id is the arrival instant rendered as a decimal
string, ids of arrivals at distinct instants are distinct (two arrivals
in the same millisecond receive equal ids), and two sequential enqueues
preserve arrival order, oldest first. -/
theorem enqueue_amended :
    (∀ (data : HazardPayload) (now : ℕ) (alerts : List Alert),
      enqueue data now alerts = alerts ++ [{ payload := data, id := freshId now }]) ∧
    (∀ n1 n2 : ℕ, n1 ≠ n2 → freshId n1 ≠ freshId n2) ∧
    (∀ (d1 d2 : HazardPayload) (n1 n2 : ℕ) (q : List Alert),
      (enqueue d2 n2 (enqueue d1 n1 q)).map Alert.id =
        q.map Alert.id ++ [freshId n1, freshId n2]) := by
  refine ⟨fun _ _ _ => rfl, ?_, ?_⟩
  · intro n1 n2 hne h
    exact hne (natRepr_injective n1 n2 h)
  · intro d1 d2 n1 n2 q
    simp [enqueue]

/-- Witness for C4's amended theorem: ids generated at the distinct
instants 5 and 6 differ. -/
theorem enqueue_amended_witness : freshId 5 ≠ freshId 6 :=
  enqueue_amended.2.1 5 6 (by decide)

/-- Concrete alert already in the queue with id "5", used by the C5
counterexample. -/
def a0 : Alert := { payload := p1, id := "5" }

/-- Counterexample to claim C5 as stated: if the queue already holds a
record with id "5" and a new record is enqueued at instant 5 (id "5"),
dismissing that id removes both records, so the queue does not return
to its pre-enqueue state. -/
theorem dismiss_after_enqueue_counterexample :
    dismissAlert (freshId 5) (enqueue p1 5 [a0]) = [] ∧ [a0] ≠ ([] : List Alert) := by
  constructor
  · rfl
  · intro h
    exact absurd (congrArg List.length h) (by simp)

/-- Claim C5 as amended: dismiss(id) removes every AlertRecord bearing
that id (with unique ids, the record with that id); it is a no-op when
the id is absent and never throws; it is idempotent; and enqueue
followed by dismiss of the same id restores the original queue provided
no record with that id was already present — in particular a queue that
started empty is empty again. -/
theorem dismiss_amended :
    (∀ (i : String) (alerts : List Alert), ∀ a ∈ dismissAlert i alerts, a.id ≠ i) ∧
    (∀ (i : String) (alerts : List Alert),
      (∀ a ∈ alerts, a.id ≠ i) → dismissAlert i alerts = alerts) ∧
    (∀ (i : String) (alerts : List Alert),
      dismissAlert i (dismissAlert i alerts) = dismissAlert i alerts) ∧
    (∀ (data : HazardPayload) (now : ℕ) (alerts : List Alert),
      (∀ a ∈ alerts, a.id ≠ freshId now) →
        dismissAlert (freshId now) (enqueue data now alerts) = alerts) := by
  have hkeep : ∀ (i : String) (alerts : List Alert),
      (∀ a ∈ alerts, a.id ≠ i) → dismissAlert i alerts = alerts := by
    intro i alerts h
    apply List.filter_eq_self.mpr
    intro a ha
    exact decide_eq_true (h a ha)
  have hmem : ∀ (i : String) (alerts : List Alert), ∀ a ∈ dismissAlert i alerts, a.id ≠ i := by
    intro i alerts a ha
    have := List.of_mem_filter ha
    exact of_decide_eq_true this
  refine ⟨hmem, hkeep, ?_, ?_⟩
  · intro i alerts
    exact hkeep i (dismissAlert i alerts) (hmem i alerts)
  · intro data now alerts h
    rw [enqueue, dismissAlert, List.filter_append]
    have h1 : alerts.filter (fun alert => decide (alert.id ≠ freshId now)) = alerts :=
      hkeep (freshId now) alerts h
    have h2 : ([{ payload := data, id := freshId now }] : List Alert).filter
        (fun alert => decide (alert.id ≠ freshId now)) = [] := by
      simp [List.filter]
    rw [h1, h2, List.append_nil]

/-- Witness for C5's amended theorem: enqueue into the empty queue then
dismiss of the same id leaves the queue empty; the absence hypothesis
is discharged on the empty queue. -/
theorem dismiss_amended_witness : dismissAlert (freshId 0) (enqueue p1 0 []) = [] :=
  dismiss_amended.2.2.2 p1 0 [] (by simp)

/-- Claim C6: every admitted event makes the handler append exactly one
AlertRecord and issue exactly one fetchHazards refresh, a non-admitted
event issues none, appending always changes the queue, and the refresh
outcome (success or failure) never touches the alerts queue. -/
theorem enqueue_refresh_once :
    (∀ (cl : Option Location) (data : HazardPayload) (now : ℕ) (alerts l : List Alert) (n : ℕ),
      handleHazardAlert cl data now alerts = some (l, n) →
        ((l = enqueue data now alerts ∧ n = 1) ∨ (l = alerts ∧ n = 0))) ∧
    (∀ (data : HazardPayload) (now : ℕ) (alerts : List Alert),
      enqueue data now alerts ≠ alerts) ∧
    (∀ (st : DashState) (res : Except String (List HazardPayload)),
      (fetchHazardsResult st res).alerts = st.alerts) := by
  refine ⟨?_, ?_, ?_⟩
  · intro cl data now alerts l n h
    cases cl with
    | none =>
        right
        have h2 := (Option.some.injEq _ _).mp h
        exact ⟨(congrArg Prod.fst h2).symm, (congrArg Prod.snd h2).symm⟩
    | some loc =>
        cases hdl : data.location with
        | none =>
            exfalso
            rw [handleHazardAlert, hdl] at h
            exact Option.noConfusion h
        | some dloc =>
            simp only [handleHazardAlert, hdl] at h
            by_cases hd : Dashboard.calculateDistance loc.lat loc.lon dloc.lat dloc.lon ≤ 3
            · rw [if_pos hd] at h
              left
              have h2 := (Option.some.injEq _ _).mp h
              exact ⟨(congrArg Prod.fst h2).symm, (congrArg Prod.snd h2).symm⟩
            · rw [if_neg hd] at h
              right
              have h2 := (Option.some.injEq _ _).mp h
              exact ⟨(congrArg Prod.fst h2).symm, (congrArg Prod.snd h2).symm⟩
  · intro data now alerts h
    have := congrArg List.length h
    simp [enqueue] at this
  · intro st res
    cases res <;> rfl

/-- Witness for C6 at a concrete input: the handler with no known
Position returns the unchanged queue with zero refreshes, and the
fetch-failure clause applied to a concrete state keeps the queue. -/
theorem enqueue_refresh_once_witness :
    ((([] : List Alert) = enqueue p1 0 [] ∧ 0 = 1) ∨ (([] : List Alert) = [] ∧ 0 = 0)) ∧
    (fetchHazardsResult { hazards := [], loading := true, alerts := [a0], toasts := [] }
        (Except.error "network down")).alerts = [a0] :=
  ⟨enqueue_refresh_once.1 none p1 0 [] [] 0 rfl,
   enqueue_refresh_once.2.2 { hazards := [], loading := true, alerts := [a0], toasts := [] }
     (Except.error "network down")⟩

/-! Discrete-event model of AlertNotification.tsx (lines 23-48).
On mount the component schedules handleDismiss 10000 ms ahead; the
useEffect cleanup, run on unmount, clears only that timer. handleDismiss
(also invoked by the user's dismiss click) hides the card and schedules
onDismiss 300 ms ahead; onDismiss removes the AlertRecord from the
Dashboard queue, which unmounts the component. Pending callbacks fire
in order of due time, ties broken by registration order, as in the
JavaScript event loop. -/

/-- Kinds of scheduled callbacks in the AlertNotification model:
the 10-second auto-expiry timer, the 300 ms delayed onDismiss callback
of handleDismiss, and the user's manual dismiss click treated as an
external event due at the click instant. -/
inductive TAct where
  | autoF
  | dismissCB
  | clickEv
deriving DecidableEq

/-- One scheduled callback: due time (ms), registration sequence number
(tie-break), kind. -/
structure Timer where
  due : ℕ
  seq : ℕ
  act : TAct
deriving DecidableEq

/-- State of one mounted AlertNotification together with its slot in
the Dashboard queue. -/
structure NState where
  pending : List Timer
  mounted : Bool
  removed : Bool
  dismissCalls : ℕ
  autoFired : Bool
  removalTime : ℕ
  nextSeq : ℕ

/-- Earlier-in-the-event-loop order: earlier due time, ties broken by
earlier registration. -/
def earlier (a b : Timer) : Bool :=
  decide (b.due < a.due ∨ (b.due = a.due ∧ b.seq < a.seq))

/-- Next callback the event loop runs: minimal (due, seq). -/
def nextTimer : List Timer → Option Timer
  | [] => none
  | t :: ts => some (ts.foldl (fun a b => if earlier a b then b else a) t)

/-- One event-loop step of the AlertNotification model. -/
def stepN (s : NState) : NState :=
  match nextTimer s.pending with
  | none => s
  | some t =>
    let rest := s.pending.erase t
    match t.act with
    | .clickEv =>
        if s.mounted then
          { s with pending := rest ++ [{ due := t.due + 300, seq := s.nextSeq, act := .dismissCB }],
                   nextSeq := s.nextSeq + 1 }
        else { s with pending := rest }
    | .autoF =>
        { s with pending := rest ++ [{ due := t.due + 300, seq := s.nextSeq, act := .dismissCB }],
                 nextSeq := s.nextSeq + 1, autoFired := true }
    | .dismissCB =>
        let s1 := { s with pending := rest, dismissCalls := s.dismissCalls + 1 }
        if s1.removed then s1
        else
          { s1 with removed := true, removalTime := t.due, mounted := false,
                    pending := rest.filter (fun x => x.act ≠ TAct.autoF) }

/-- Run the event loop to quiescence, with fuel bounding the number of
steps (five callbacks at most can ever be scheduled here). -/
def runSim : ℕ → NState → NState
  | 0, s => s
  | fuel + 1, s =>
    match nextTimer s.pending with
    | none => s
    | some _ => runSim fuel (stepN s)

/-- Initial state at mount (time 0): the 10-second auto-expiry timer is
scheduled; a manual dismiss click at offset t, when given, is an
external event due at t. -/
def initN (md : Option ℕ) : NState :=
  { pending := { due := 10000, seq := 0, act := TAct.autoF } ::
      (match md with
       | some t => [{ due := t, seq := 1, act := TAct.clickEv }]
       | none => []),
    mounted := true, removed := false, dismissCalls := 0, autoFired := false,
    removalTime := 0, nextSeq := 2 }

/-- Outcome of one AlertRecord's lifetime given an optional manual
dismiss instant (ms after mount). -/
def alertOutcome (md : Option ℕ) : NState := runSim 6 (initN md)

/-- Claim C7 (code bug, evaluated at the failing input): a manual
dismiss 9800 ms after mount removes the record at 10100 ms, yet the
auto-expiry timer still fires at 10 s — the unmount that would clear it
only happens at 10300 ms — and a second, redundant dismiss callback
runs. Without any manual dismissal the removal is at 10300 ms, inside
the spec's tolerated [10 s, 11 s) window. -/
theorem alert_auto_expiry_redundant_fire :
    (alertOutcome (some 9800)).removalTime = 10100 ∧
    (alertOutcome (some 9800)).autoFired = true ∧
    (alertOutcome (some 9800)).dismissCalls = 2 ∧
    (alertOutcome none).removalTime = 10300 ∧
    (alertOutcome none).dismissCalls = 1 := by
  refine ⟨?_, ?_, ?_, ?_, ?_⟩ <;> decide

/-! Model of the SocketIO useEffect (Dashboard.tsx lines 56-107).
React runs the previous effect's cleanup — socket.disconnect() — before
re-running the effect body on a dependency change (token change,
location change) and on unmount. The body returns early with no socket
when there is no token. -/

/-- One live socket connection: a fresh connection id plus the token it
authenticated with. -/
structure Channel where
  cid : ℕ
  token : String
deriving DecidableEq

/-- Observable connect/disconnect actions on the live event channel. -/
inductive ChanAct where
  | closeCh (c : Channel)
  | openCh (c : Channel)
deriving DecidableEq

/-- State of the socket effect: the set of currently connected sockets
(a list, so that a model error could make two coexist), the cleanup
closure installed by the last effect run, and a fresh-id counter. -/
structure SockState where
  openChans : List Channel
  cleanup : Option Channel
  fresh : ℕ

/-- Run the currently installed cleanup (socket.disconnect()). -/
def runCleanup (s : SockState) : SockState × List ChanAct :=
  match s.cleanup with
  | none => (s, [])
  | some c =>
      ({ s with openChans := s.openChans.erase c, cleanup := none }, [ChanAct.closeCh c])

/-- One effect run caused by a dependency change: previous cleanup
first, then the body — early return without a socket when no token,
otherwise connect a new socket and install its disconnect as cleanup. -/
def effectRun (s : SockState) (tok : Option String) : SockState × List ChanAct :=
  let p := runCleanup s
  match tok with
  | none => p
  | some t =>
      let c : Channel := { cid := p.1.fresh, token := t }
      ({ openChans := p.1.openChans ++ [c], cleanup := some c, fresh := p.1.fresh + 1 },
        p.2 ++ [ChanAct.openCh c])

/-- Effect runs for a whole session: one effect run per dependency
change, accumulating the action trace. -/
def runEvents : SockState → List (Option String) → SockState × List ChanAct
  | s, [] => (s, [])
  | s, tok :: rest =>
      let p := effectRun s tok
      let q := runEvents p.1 rest
      (q.1, p.2 ++ q.2)

/-- Initial socket state: nothing connected. -/
def initSock : SockState := { openChans := [], cleanup := none, fresh := 0 }

/-- Session model: dependency changes followed by component unmount,
whose cleanup is the last effect's cleanup. -/
def sessionRun (evs : List (Option String)) : SockState × List ChanAct :=
  let p := runEvents initSock evs
  let q := runCleanup p.1
  (q.1, p.2 ++ q.2)

/-- Channels still connected after a prefix of the action trace. -/
def liveStep (live : List Channel) : ChanAct → List Channel
  | ChanAct.closeCh c => live.erase c
  | ChanAct.openCh c => live ++ [c]

/-- Scoped-acquisition check over an action trace: an openCh action is
allowed only when no channel is currently connected, so the old channel
is always fully closed before a new one opens. -/
def traceOK : List Channel → List ChanAct → Bool
  | _, [] => true
  | live, ChanAct.closeCh c :: tr => traceOK (live.erase c) tr
  | live, ChanAct.openCh c :: tr => live.isEmpty && traceOK (live ++ [c]) tr

/-- Effect-state invariant: either nothing is connected and no cleanup
is installed, or exactly the one channel installed as cleanup is
connected. -/
def SockInv (s : SockState) : Prop :=
  (s.openChans = [] ∧ s.cleanup = none) ∨
  (∃ c, s.openChans = [c] ∧ s.cleanup = some c)

theorem traceOK_append (a : List ChanAct) :
    ∀ (b : List ChanAct) (live : List Channel),
      traceOK live (a ++ b) = (traceOK live a && traceOK (a.foldl liveStep live) b) := by
  induction a with
  | nil => intro b live; simp [traceOK]
  | cons x xs ih =>
      intro b live
      cases x with
      | closeCh c =>
          simp only [List.cons_append, traceOK, List.foldl_cons, liveStep, List.append_eq, ih]
      | openCh c =>
          simp only [List.cons_append, traceOK, List.foldl_cons, liveStep, List.append_eq, ih,
            Bool.and_assoc]

theorem runCleanup_spec (s : SockState) (h : SockInv s) :
    SockInv (runCleanup s).1 ∧
    (runCleanup s).1.openChans = [] ∧
    (runCleanup s).1.fresh = s.fresh ∧
    traceOK s.openChans (runCleanup s).2 = true ∧
    (runCleanup s).2.foldl liveStep s.openChans = (runCleanup s).1.openChans := by
  rcases h with ⟨h1, h2⟩ | ⟨c, h1, h2⟩
  · simp [runCleanup, h1, h2, traceOK, SockInv]
  · simp [runCleanup, h1, h2, traceOK, SockInv, liveStep]

theorem effectRun_spec (s : SockState) (tok : Option String) (h : SockInv s) :
    SockInv (effectRun s tok).1 ∧
    traceOK s.openChans (effectRun s tok).2 = true ∧
    (effectRun s tok).2.foldl liveStep s.openChans = (effectRun s tok).1.openChans := by
  obtain ⟨hc1, hc2, hc3, hc4, hc5⟩ := runCleanup_spec s h
  cases tok with
  | none =>
      exact ⟨hc1, by simpa [effectRun] using ⟨hc4, hc5⟩⟩
  | some t =>
      refine ⟨?_, ?_, ?_⟩
      · right
        exact ⟨{ cid := (runCleanup s).1.fresh, token := t }, by simp [effectRun, hc2], by simp [effectRun]⟩
      · show traceOK s.openChans ((runCleanup s).2 ++ [ChanAct.openCh _]) = true
        rw [traceOK_append, hc4, hc5, hc2]
        simp [traceOK]
      · show ((runCleanup s).2 ++ [ChanAct.openCh _]).foldl liveStep s.openChans =
          (runCleanup s).1.openChans ++ [_]
        rw [List.foldl_append, hc5, hc2]
        simp [liveStep, hc2]

theorem runEvents_spec :
    ∀ (evs : List (Option String)) (s : SockState), SockInv s →
      SockInv (runEvents s evs).1 ∧
      traceOK s.openChans (runEvents s evs).2 = true ∧
      (runEvents s evs).2.foldl liveStep s.openChans = (runEvents s evs).1.openChans := by
  intro evs
  induction evs with
  | nil => intro s h; exact ⟨h, rfl, rfl⟩
  | cons tok rest ih =>
      intro s h
      obtain ⟨he1, he2, he3⟩ := effectRun_spec s tok h
      obtain ⟨hr1, hr2, hr3⟩ := ih (effectRun s tok).1 he1
      refine ⟨hr1, ?_, ?_⟩
      · show traceOK s.openChans ((effectRun s tok).2 ++ (runEvents (effectRun s tok).1 rest).2) = true
        rw [traceOK_append, he2, he3, hr2]
        rfl
      · show ((effectRun s tok).2 ++ (runEvents (effectRun s tok).1 rest).2).foldl liveStep
            s.openChans = (runEvents (effectRun s tok).1 rest).1.openChans
        rw [List.foldl_append, he3, hr3]

/-- Claim C8: over every sequence of dependency changes (token changes,
logout, location updates) followed by unmount, the socket effect keeps
at most one channel connected at any reachable state, every new channel
is opened only after the previously connected one is closed (the trace
check), and after the final unmount cleanup no channel remains
connected. -/
theorem socket_lifecycle_scoped (evs : List (Option String)) :
    traceOK [] (sessionRun evs).2 = true ∧
    (sessionRun evs).1.openChans = [] ∧
    (runEvents initSock evs).1.openChans.length ≤ 1 := by
  have hinv : SockInv initSock := Or.inl ⟨rfl, rfl⟩
  obtain ⟨hr1, hr2, hr3⟩ := runEvents_spec evs initSock hinv
  obtain ⟨hc1, hc2, hc3, hc4, hc5⟩ := runCleanup_spec (runEvents initSock evs).1 hr1
  refine ⟨?_, ?_, ?_⟩
  · show traceOK [] ((runEvents initSock evs).2 ++ (runCleanup (runEvents initSock evs).1).2) = true
    rw [traceOK_append]
    have h0 : initSock.openChans = [] := rfl
    rw [← h0, hr2, hr3, hc4]
    rfl
  · exact hc2
  · rcases hr1 with ⟨h1, -⟩ | ⟨c, h1, -⟩ <;> simp [h1]

/-- Hazard record as served by the REST collaborator (Hazard in
src/lib/api.ts): location always present, timestamp modelled by its
getTime() epoch-millisecond value. -/
structure Hazard where
  _id : String
  user_id : String
  hazard_type : String
  description : String
  confidence : ℝ
  location : Location
  timestamp : ℕ

namespace HazardList

/-- Sorting comparator order when a current Position is known:
non-decreasing distance from it (comparator distA - distB,
HazardList.tsx lines 40-52). -/
def byDistance (loc : Location) (a b : Hazard) : Prop :=
  calculateDistance loc.lat loc.lon a.location.lat a.location.lon ≤
    calculateDistance loc.lat loc.lon b.location.lat b.location.lon

/-- Sorting order when no Position is known: most recent timestamp
first (comparator on getTime values, HazardList.tsx line 38). -/
def byRecency (a b : Hazard) : Prop := b.timestamp ≤ a.timestamp

/-- Model of sortedHazards (HazardList.tsx lines 37-53):
[...hazards].sort(comparator). The spread copies the list, so the input
is left unmodified and the function is pure; the sort itself is
modelled by mergeSort with the comparator's induced ordering. -/
noncomputable def sortedHazards (cl : Option Location) (hazards : List Hazard) : List Hazard :=
  match cl with
  | none => hazards.mergeSort (fun a b => decide (b.timestamp ≤ a.timestamp))
  | some loc => hazards.mergeSort (fun a b =>
      decide (calculateDistance loc.lat loc.lon a.location.lat a.location.lon ≤
        calculateDistance loc.lat loc.lon b.location.lat b.location.lon))

end HazardList

/-- Claim C10: the listing shown to the user is a permutation of the
input hazards, sorted by non-decreasing distance from the current
Position when one is known and by most-recent timestamp first
otherwise; the input list is not mutated (the model function is pure
and returns a fresh list, as the source's array spread does). -/
theorem sorted_hazards_spec (cl : Option Location) (hazards : List Hazard) :
    (HazardList.sortedHazards cl hazards).Perm hazards ∧
    (cl = none → (HazardList.sortedHazards cl hazards).Sorted HazardList.byRecency) ∧
    (∀ loc, cl = some loc →
      (HazardList.sortedHazards cl hazards).Sorted (HazardList.byDistance loc)) := by
  refine ⟨?_, ?_, ?_⟩
  · cases cl with
    | none => exact List.mergeSort_perm hazards _
    | some loc => exact List.mergeSort_perm hazards _
  · rintro rfl
    have h := @List.sorted_mergeSort Hazard
      (fun a b : Hazard => decide (b.timestamp ≤ a.timestamp))
      (fun a b c hab hbc => by
        simp only [decide_eq_true_iff] at *
        omega)
      (fun a b => by
        simp only [Bool.or_eq_true, decide_eq_true_iff]
        omega)
      hazards
    refine List.Pairwise.imp ?_ h
    intro a b hab
    have hx := of_decide_eq_true hab
    exact hx
  · rintro loc rfl
    have h := @List.sorted_mergeSort Hazard
      (fun a b : Hazard =>
        decide (HazardList.calculateDistance loc.lat loc.lon a.location.lat a.location.lon ≤
          HazardList.calculateDistance loc.lat loc.lon b.location.lat b.location.lon))
      (fun a b c hab hbc => by
        simp only [decide_eq_true_iff] at *
        exact le_trans hab hbc)
      (fun a b => by
        simp only [Bool.or_eq_true, decide_eq_true_iff]
        exact le_total _ _)
      hazards
    refine List.Pairwise.imp ?_ h
    intro a b hab
    have hx := of_decide_eq_true hab
    exact hx

/-- Concrete hazards used by the C10 witness. -/
def h0 : Hazard :=
  { _id := "a", user_id := "u1", hazard_type := "pothole", description := "x",
    confidence := 80, location := { lat := 40, lon := -74 }, timestamp := 100 }

/-- Second concrete hazard, reported later than h0. -/
def h1 : Hazard :=
  { _id := "b", user_id := "u2", hazard_type := "flood", description := "y",
    confidence := 60, location := { lat := 41, lon := -73 }, timestamp := 200 }

/-- Witness for C10 at a concrete input: with no known Position the
hypothesis cl = none is discharged and the sorted listing of [h0, h1]
is a most-recent-first permutation of the input. -/
theorem sorted_hazards_spec_witness :
    (HazardList.sortedHazards none [h0, h1]).Perm [h0, h1] ∧
    (HazardList.sortedHazards none [h0, h1]).Sorted HazardList.byRecency :=
  ⟨(sorted_hazards_spec none [h0, h1]).1, (sorted_hazards_spec none [h0, h1]).2.1 rfl⟩
